import Mathlib

/-!
Shallow embedding of `perfkitbenchmarker/providers/aws/aws_network_interface.py`.

The module manages one AWS elastic network interface (ENI).  The parts the
properties below are about:

* a static table `NUM_NETWORK_INTERFACES` mapping machine type to interface
  slot count;
* `_Exists`, which parses a describe response (a list of matching interfaces,
  each carrying a status string) into a boolean, with two `assert`s;
* `Attach(vm)`, which under a process-wide lock lazily initialises the shared
  registry `vm_devices[vm.id]` to `set(range(1, NUM_NETWORK_INTERFACES[vm.machine_type]))`,
  claims the minimum of that set, removes it, and then (outside the lock)
  issues the provider attach call and stores the returned attachment id;
* `Detach()`, which issues the provider detach call and then, under the lock,
  asserts the machine is tracked, re-adds the device index to the free set and
  clears `attached_vm_id` and `device_letter`.

Python exceptions are modelled by returning the mutated state together with an
optional error: assignments executed before the raise persist, exactly as the
Python object state does.  The provider CLI is external; its responses enter
as parameters.  Machine integers are `Nat` (no overflow arises), Python sets
of ints are `Finset ℕ`, and the class-level dict `vm_devices` is a function
`String → Option (Finset ℕ)`.
-/

namespace AwsNetworkInterface

/-- Source: `NETWORK_INTERFACE_EXISTS_STATUS = frozenset(['available', 'in-use'])`. -/
def NETWORK_INTERFACE_EXISTS_STATUS : List String := ["available", "in-use"]

/-- Source: `NETWORK_INTERFACE_KNOWN_STATUS = NETWORK_INTERFACE_EXISTS_STATUS`. -/
def NETWORK_INTERFACE_KNOWN_STATUS : List String := NETWORK_INTERFACE_EXISTS_STATUS

/-- Source: the `NUM_NETWORK_INTERFACES` dict, machine type → interface slot count. -/
def NUM_NETWORK_INTERFACES : List (String × ℕ) :=
  [("c1.medium", 2), ("c1.xlarge", 4),
   ("c3.large", 3), ("c3.xlarge", 4), ("c3.2xlarge", 4), ("c3.4xlarge", 8),
   ("c3.8xlarge", 8),
   ("c4.large", 3), ("c4.xlarge", 4), ("c4.2xlarge", 4), ("c4.4xlarge", 8),
   ("c4.8xlarge", 8), ("cc2.8xlarge", 8),
   ("cg1.4xlarge", 8), ("cr1.8xlarge", 8), ("g2.2xlarge", 4), ("g2.8xlarge", 8),
   ("hi1.4xlarge", 8), ("hs1.8xlarge", 8),
   ("i2.xlarge", 4), ("i2.2xlarge", 4), ("i2.4xlarge", 8), ("i2.8xlarge", 8),
   ("m1.small", 2), ("m1.medium", 2), ("m1.large", 3), ("m1.xlarge", 4),
   ("m2.xlarge", 4), ("m2.2xlarge", 8), ("m2.4xlarge", 8),
   ("m3.medium", 2), ("m3.large", 4), ("m3.xlarge", 4), ("m3.2xlarge", 8),
   ("r3.large", 4), ("r3.xlarge", 4), ("r3.2xlarge", 8), ("r3.4xlarge", 8),
   ("r3.8xlarge", 8), ("d2.xlarge", 4), ("d2.2xlarge", 4), ("d2.4xlarge", 8),
   ("d2.8xlarge", 8), ("x1.32xlarge", 2), ("t1.micro", 2), ("t2.nano", 2),
   ("t2.medium", 3), ("t2.large", 3)]

/-- Python dict indexing `NUM_NETWORK_INTERFACES[t]`: `some` the value, `none`
models the `KeyError` for an absent machine type. -/
def numNetworkInterfaces (machineType : String) : Option ℕ :=
  NUM_NETWORK_INTERFACES.lookup machineType

/-- Errors `_Exists` can raise (both are Python `assert` failures). -/
inductive DescribeError
  | tooManyInterfaces
  | unknownStatus (s : String)
  deriving DecidableEq

/-- Source: `_Exists`.  The describe response is abstracted to the list of
status strings of the returned interfaces (`enis`): the code reads nothing
else from it.  `assert len(enis) < 2`; empty → `False`; otherwise
`assert status in NETWORK_INTERFACE_KNOWN_STATUS` and
`return status in NETWORK_INTERFACE_EXISTS_STATUS`. -/
def existsCheck (enis : List String) : Except DescribeError Bool :=
  if 2 ≤ enis.length then .error .tooManyInterfaces
  else
    match enis with
    | [] => .ok false
    | status :: _ =>
      if NETWORK_INTERFACE_KNOWN_STATUS.contains status then
        .ok (NETWORK_INTERFACE_EXISTS_STATUS.contains status)
      else .error (.unknownStatus status)

/-- The machine object, as `Attach` reads it: `vm.id` and `vm.machine_type`. -/
structure VM where
  id : String
  machine_type : String
  deriving DecidableEq

/-- The per-interface mutable state `Attach`/`Detach` touch.  (`self.id`,
`self.network` and `self.internal_ip` belong to Create/Delete and never
interact with the attach bookkeeping, so they are not carried.) -/
structure NI where
  attached_vm_id : Option String
  device_letter : Option ℕ
  attachment_id : Option String
  deriving DecidableEq

/-- A freshly constructed interface (`__init__`: all attach fields `None`). -/
def freshNI : NI := ⟨none, none, none⟩

/-- The class-level registry `AwsNetworkInterface.vm_devices`: machine id →
free device-index set; `none` models an absent dict key. -/
abbrev Registry := String → Option (Finset ℕ)

/-- The empty registry (initial class state `vm_devices = {}`). -/
def emptyRegistry : Registry := fun _ => none

/-- Python dict assignment `vm_devices[m] = s`. -/
def Registry.update (reg : Registry) (m : String) (s : Finset ℕ) : Registry :=
  fun k => if k = m then some s else reg k

/-- Errors `Attach` can raise. -/
inductive AttachError
  | keyError (machineType : String)
  | valueErrorEmpty
  | providerError
  deriving DecidableEq

/-- The tail of the locked block of `Attach`, after the lazy initialisation:
`self.device_letter = min(vm_devices[id]); vm_devices[id].remove(...)`.
`s` is the set stored at `vmId`.  Python `min` on an empty set raises
`ValueError`. -/
def claimMin (res : NI) (reg : Registry) (vmId : String) (s : Finset ℕ) :
    (NI × Registry) × Option AttachError :=
  if h : s.Nonempty then
    (({ res with device_letter := some (s.min' h) },
      reg.update vmId (s.erase (s.min' h))), none)
  else ((res, reg), some .valueErrorEmpty)

/-- The `with self._lock:` block of `Attach`:
`self.attached_vm_id = vm.id`; lazy init of `vm_devices[vm.id]` to
`set(range(1, NUM_NETWORK_INTERFACES[vm.machine_type]))` when the key is
absent; then claim the minimum.  On an error the mutations already made
(`attached_vm_id`, a possibly initialised registry entry) persist. -/
def attachCS (res : NI) (reg : Registry) (vm : VM) :
    (NI × Registry) × Option AttachError :=
  let res1 : NI := { res with attached_vm_id := some vm.id }
  match reg vm.id with
  | none =>
    match numNetworkInterfaces vm.machine_type with
    | none => ((res1, reg), some (.keyError vm.machine_type))
    | some c => claimMin res1 (reg.update vm.id (Finset.Ico 1 c)) vm.id (Finset.Ico 1 c)
  | some s => claimMin res1 reg vm.id s

/-- Full `Attach`: the locked block, then (outside the lock) the provider
attach call.  `providerResponse` is the `AttachmentId` of a successful call,
`none` a provider failure propagating out of `IssueRetryableCommand`; on
failure `self.attachment_id` is not assigned but the locked block's effects
remain. -/
def attach (res : NI) (reg : Registry) (vm : VM) (providerResponse : Option String) :
    (NI × Registry) × Option AttachError :=
  match attachCS res reg vm with
  | (st, some e) => (st, some e)
  | ((res2, reg2), none) =>
    match providerResponse with
    | none => ((res2, reg2), some .providerError)
    | some aid => (({ res2 with attachment_id := some aid }, reg2), none)

/-- Errors `Detach` can raise.  `noneDeviceIndex` marks the state where
`self.device_letter` is `None` yet the machine is tracked: the Python code
would insert `None` into an integer set there, which has no counterpart in a
`Finset ℕ`; no property below goes through this branch. -/
inductive DetachError
  | providerError
  | assertionFailed
  | noneDeviceIndex
  deriving DecidableEq

/-- Source: `Detach`.  Provider detach call first (outside the lock), then
under the lock: `assert self.attached_vm_id in vm_devices` (an absent key or
`None` id fails the assert), `vm_devices[id].add(self.device_letter)`,
`self.attached_vm_id = None`, `self.device_letter = None`.
Note `self.attachment_id` is NOT cleared. -/
def detach (res : NI) (reg : Registry) (providerOk : Bool) :
    (NI × Registry) × Option DetachError :=
  if providerOk then
    match res.attached_vm_id with
    | none => ((res, reg), some .assertionFailed)
    | some m =>
      match reg m with
      | none => ((res, reg), some .assertionFailed)
      | some s =>
        match res.device_letter with
        | none => ((res, reg), some .noneDeviceIndex)
        | some d =>
          (({ res with attached_vm_id := none, device_letter := none },
            reg.update m (insert d s)), none)
  else ((res, reg), some .providerError)

/-- The process-wide state the invariant claims quantify over: the shared
registry plus every interface object, indexed by an arbitrary identifier. -/
structure Sys where
  resources : ℕ → NI
  registry : Registry

/-- Replace the interface object at index `i`. -/
def setRes (f : ℕ → NI) (i : ℕ) (r : NI) : ℕ → NI :=
  fun j => if j = i then r else f j

/-- Initial process state: fresh objects and the empty class dict. -/
def sysInit : Sys := ⟨fun _ => freshNI, emptyRegistry⟩

/-- One `Attach` or `Detach` call on one interface, at the granularity the
process-wide lock enforces (each locked block is a single transition; states
are observed where the lock is free).  `env` fixes the machine type of each
machine id, as the `vm` objects do.  Following the documented lifecycle,
`Attach` is called on interfaces that hold no device index and `Detach` on
interfaces that hold one. -/
inductive SysStep (env : String → String) : Sys → Sys → Prop
  | attachStep (s : Sys) (i : ℕ) (vmId : String) (pr : Option String)
      (hfree : (s.resources i).device_letter = none) :
      SysStep env s
        ⟨setRes s.resources i (attach (s.resources i) s.registry ⟨vmId, env vmId⟩ pr).1.1,
         (attach (s.resources i) s.registry ⟨vmId, env vmId⟩ pr).1.2⟩
  | detachStep (s : Sys) (i : ℕ) (ok : Bool) (d : ℕ)
      (hd : (s.resources i).device_letter = some d) :
      SysStep env s
        ⟨setRes s.resources i (detach (s.resources i) s.registry ok).1.1,
         (detach (s.resources i) s.registry ok).1.2⟩

/-- The registry invariant of the spec, in its inductive form:
`regRange` — a machine's free set only holds indices in `[1, slot_count)`;
`heldOk` — a held index is in range, its machine is tracked, and it is not
simultaneously free; `distinctIdx` — no two interfaces hold the same
(machine, device index) pair. -/
structure Inv (env : String → String) (s : Sys) : Prop where
  regRange : ∀ m fs, s.registry m = some fs → ∀ d ∈ fs,
    ∃ c, numNetworkInterfaces (env m) = some c ∧ 1 ≤ d ∧ d < c
  heldOk : ∀ i m d, (s.resources i).attached_vm_id = some m →
    (s.resources i).device_letter = some d →
    ∃ fs, s.registry m = some fs ∧ d ∉ fs ∧
      ∃ c, numNetworkInterfaces (env m) = some c ∧ 1 ≤ d ∧ d < c
  distinctIdx : ∀ i j m di dj, i ≠ j →
    (s.resources i).attached_vm_id = some m →
    (s.resources j).attached_vm_id = some m →
    (s.resources i).device_letter = some di →
    (s.resources j).device_letter = some dj → di ≠ dj

/-- `n` successive `Attach` calls for `n` distinct fresh interfaces against
the same machine, each with a successful provider call: the final registry
and the device indices assigned, in call order. -/
def attachSeq (reg : Registry) (vm : VM) : ℕ → Registry × List (Option ℕ)
  | 0 => (reg, [])
  | n + 1 =>
    let p := attachSeq reg vm n
    let q := attach freshNI p.1 vm (some "att")
    (q.1.2, p.2 ++ [q.1.1.device_letter])

/-- The two interface objects and the shared registry while two threads run
`Attach(vm)` concurrently for the same machine. -/
structure CState where
  r0 : NI
  r1 : NI
  reg : Registry

/-- One atomic step of one of the two threads: its locked block (atomic
because both threads acquire the single class-level lock), or its provider
attach call (outside the lock; stores only the attachment id). -/
inductive Action
  | cs (t : Bool)
  | provider (t : Bool)
  deriving DecidableEq

/-- Execute one action of one thread. -/
def execA (vm : VM) (aid : String) (st : CState) : Action → CState
  | .cs false => ⟨(attachCS st.r0 st.reg vm).1.1, st.r1, (attachCS st.r0 st.reg vm).1.2⟩
  | .cs true => ⟨st.r0, (attachCS st.r1 st.reg vm).1.1, (attachCS st.r1 st.reg vm).1.2⟩
  | .provider false => ⟨{ st.r0 with attachment_id := some aid }, st.r1, st.reg⟩
  | .provider true => ⟨st.r0, { st.r1 with attachment_id := some aid }, st.reg⟩

/-- Execute a schedule of actions. -/
def execList (vm : VM) (aid : String) : List Action → CState → CState
  | [], st => st
  | a :: rest, st => execList vm aid rest (execA vm aid st a)

/-- The program of thread `t`: locked block, then provider call. -/
def threadProg (t : Bool) : List Action := [.cs t, .provider t]

/-- `Interleaving l r tr`: `tr` is an order-preserving merge of `l` and `r`. -/
inductive Interleaving : List Action → List Action → List Action → Prop
  | nil : Interleaving [] [] []
  | left (a : Action) (l r m : List Action) :
      Interleaving l r m → Interleaving (a :: l) r (a :: m)
  | right (a : Action) (l r m : List Action) :
      Interleaving l r m → Interleaving l (a :: r) (a :: m)

theorem Registry.update_self (reg : Registry) (m : String) (s : Finset ℕ) :
    reg.update m s m = some s := by
  simp [Registry.update]

theorem Registry.update_ne (reg : Registry) (m k : String) (s : Finset ℕ) (h : k ≠ m) :
    reg.update m s k = reg k := by
  simp [Registry.update, h]

theorem lookup_mem {α β : Type} [BEq α] [LawfulBEq α] (l : List (α × β)) (a : α) (b : β)
    (h : l.lookup a = some b) : (a, b) ∈ l := by
  induction l with
  | nil => simp [List.lookup] at h
  | cons p l ih =>
    obtain ⟨k, v⟩ := p
    simp only [List.lookup] at h
    by_cases hak : a == k
    · rw [hak] at h
      simp only [Option.some.injEq] at h
      subst h
      have : a = k := by exact eq_of_beq hak
      subst this
      exact List.mem_cons_self _ _
    · simp only [Bool.not_eq_true] at hak
      rw [hak] at h
      exact List.mem_cons_of_mem _ (ih h)

/-- Every slot count in the table is at least 2, so a freshly initialised
free set `range(1, c)` is nonempty. -/
theorem numNetworkInterfaces_two_le (t : String) (c : ℕ)
    (h : numNetworkInterfaces t = some c) : 2 ≤ c := by
  have hall : ∀ p ∈ NUM_NETWORK_INTERFACES, 2 ≤ p.2 := by decide
  exact hall (t, c) (lookup_mem _ _ _ h)

theorem Ico_min' (a b : ℕ) (hne : (Finset.Ico a b).Nonempty) :
    (Finset.Ico a b).min' hne = a := by
  have hab : a < b := Finset.nonempty_Ico.mp hne
  refine le_antisymm (Finset.min'_le _ _ ?_) ?_
  · simp only [Finset.mem_Ico]
    omega
  · have h := Finset.min'_mem _ hne
    simp only [Finset.mem_Ico] at h
    exact h.1

theorem Ico_erase_left (a b : ℕ) :
    (Finset.Ico a b).erase a = Finset.Ico (a + 1) b := by
  ext d
  simp only [Finset.mem_erase, Finset.mem_Ico]
  omega

/-- A successful locked block claims the minimum of the machine's free set,
which is either the preexisting registry entry or the lazily initialised
`range(1, c)`; the claimed index is removed from the stored set and all
other machines' entries are untouched. -/
theorem attachCS_success_spec (res res2 : NI) (reg reg2 : Registry) (vm : VM)
    (h : attachCS res reg vm = ((res2, reg2), none)) :
    ∃ s : Finset ℕ, ∃ hne : s.Nonempty,
      (reg vm.id = some s ∨
        (reg vm.id = none ∧ ∃ c, numNetworkInterfaces vm.machine_type = some c ∧
          s = Finset.Ico 1 c)) ∧
      res2 = { res with attached_vm_id := some vm.id,
                        device_letter := some (s.min' hne) } ∧
      reg2 vm.id = some (s.erase (s.min' hne)) ∧
      (∀ k, k ≠ vm.id → reg2 k = reg k) := by
  cases hreg : reg vm.id with
  | none =>
    cases htab : numNetworkInterfaces vm.machine_type with
    | none => simp [attachCS, hreg, htab] at h
    | some c =>
      simp only [attachCS, hreg, htab, claimMin] at h
      by_cases hne : (Finset.Ico 1 c).Nonempty
      · rw [dif_pos hne] at h
        simp only [Prod.mk.injEq] at h
        obtain ⟨⟨hres, hreg2⟩, -⟩ := h
        refine ⟨Finset.Ico 1 c, hne, Or.inr ⟨rfl, c, rfl, rfl⟩, hres.symm, ?_, ?_⟩
        · rw [← hreg2, Registry.update_self]
        · intro k hk
          rw [← hreg2, Registry.update_ne _ _ _ _ hk, Registry.update_ne _ _ _ _ hk]
      · rw [dif_neg hne] at h; simp at h
  | some s =>
    simp only [attachCS, hreg, claimMin] at h
    by_cases hne : s.Nonempty
    · rw [dif_pos hne] at h
      simp only [Prod.mk.injEq] at h
      obtain ⟨⟨hres, hreg2⟩, -⟩ := h
      refine ⟨s, hne, Or.inl rfl, hres.symm, ?_, ?_⟩
      · rw [← hreg2, Registry.update_self]
      · intro k hk
        rw [← hreg2, Registry.update_ne _ _ _ _ hk]
    · rw [dif_neg hne] at h; simp at h

/-- A failing locked block sets `attached_vm_id` (the assignment precedes the
raise) but leaves `device_letter` alone; the registry is unchanged except
possibly for a lazily initialised entry at the target machine. -/
theorem attachCS_error_spec (res res2 : NI) (reg reg2 : Registry) (vm : VM)
    (e : AttachError) (h : attachCS res reg vm = ((res2, reg2), some e)) :
    res2 = { res with attached_vm_id := some vm.id } ∧
      (e = .keyError vm.machine_type ∧ reg vm.id = none ∧
        numNetworkInterfaces vm.machine_type = none ∧ reg2 = reg ∨
       e = .valueErrorEmpty ∧
        ((reg2 vm.id = reg vm.id ∧ reg2 = reg) ∨
          (reg vm.id = none ∧ ∃ c, numNetworkInterfaces vm.machine_type = some c ∧
            Finset.Ico 1 c = ∅ ∧ reg2 = reg.update vm.id (Finset.Ico 1 c)))) := by
  cases hreg : reg vm.id with
  | none =>
    cases htab : numNetworkInterfaces vm.machine_type with
    | none =>
      simp only [attachCS, hreg, htab, Prod.mk.injEq, Option.some.injEq] at h
      obtain ⟨⟨hres, hreg2⟩, he⟩ := h
      exact ⟨hres.symm, Or.inl ⟨he.symm, rfl, rfl, hreg2.symm⟩⟩
    | some c =>
      simp only [attachCS, hreg, htab, claimMin] at h
      by_cases hne : (Finset.Ico 1 c).Nonempty
      · rw [dif_pos hne] at h; simp at h
      · rw [dif_neg hne] at h
        simp only [Prod.mk.injEq, Option.some.injEq] at h
        obtain ⟨⟨hres, hreg2⟩, he⟩ := h
        refine ⟨hres.symm, Or.inr ⟨he.symm, Or.inr ⟨rfl, c, rfl, ?_, hreg2.symm⟩⟩⟩
        exact Finset.not_nonempty_iff_eq_empty.mp hne
  | some s =>
    simp only [attachCS, hreg, claimMin] at h
    by_cases hne : s.Nonempty
    · rw [dif_pos hne] at h; simp at h
    · rw [dif_neg hne] at h
      simp only [Prod.mk.injEq, Option.some.injEq] at h
      obtain ⟨⟨hres, hreg2⟩, he⟩ := h
      exact ⟨hres.symm, Or.inr ⟨he.symm, Or.inl ⟨by rw [← hreg2]; exact hreg, hreg2.symm⟩⟩⟩

/-- A successful `Detach` re-adds the held index to the machine's free set,
clears `attached_vm_id` and `device_letter` — and nothing else: in
particular `attachment_id` keeps its previous value (it appears unchanged
inside `{ res with ... }`). -/
theorem detach_success_spec (res res2 : NI) (reg reg2 : Registry) (ok : Bool)
    (h : detach res reg ok = ((res2, reg2), none)) :
    ok = true ∧ ∃ m d fs, res.attached_vm_id = some m ∧ res.device_letter = some d ∧
      reg m = some fs ∧
      res2 = { res with attached_vm_id := none, device_letter := none } ∧
      reg2 m = some (insert d fs) ∧ (∀ k, k ≠ m → reg2 k = reg k) := by
  cases ok with
  | false => simp [detach] at h
  | true =>
    cases hvm : res.attached_vm_id with
    | none => simp [detach, hvm] at h
    | some m =>
      cases hreg : reg m with
      | none => simp [detach, hvm, hreg] at h
      | some fs =>
        cases hd : res.device_letter with
        | none => simp [detach, hvm, hreg, hd] at h
        | some d =>
          simp only [detach, hvm, hreg, hd, if_true, Prod.mk.injEq] at h
          obtain ⟨⟨hres, hreg2⟩, -⟩ := h
          refine ⟨rfl, m, d, fs, rfl, rfl, hreg, hres.symm, ?_, ?_⟩
          · rw [← hreg2, Registry.update_self]
          · intro k hk
            rw [← hreg2, Registry.update_ne _ _ _ _ hk]

/-- Every failing `Detach` leaves both the interface object and the registry
untouched (the provider call and the assert precede every mutation). -/
theorem detach_error_spec (res res2 : NI) (reg reg2 : Registry) (ok : Bool)
    (e : DetachError) (h : detach res reg ok = ((res2, reg2), some e)) :
    res2 = res ∧ reg2 = reg := by
  cases ok with
  | false =>
    simp only [detach, Bool.false_eq_true, if_false, Prod.mk.injEq] at h
    exact ⟨h.1.1.symm, h.1.2.symm⟩
  | true =>
    cases hvm : res.attached_vm_id with
    | none =>
      simp only [detach, hvm, if_true, Prod.mk.injEq] at h
      exact ⟨h.1.1.symm, h.1.2.symm⟩
    | some m =>
      cases hreg : reg m with
      | none =>
        simp only [detach, hvm, hreg, if_true, Prod.mk.injEq] at h
        exact ⟨h.1.1.symm, h.1.2.symm⟩
      | some fs =>
        cases hd : res.device_letter with
        | none =>
          simp only [detach, hvm, hreg, hd, if_true, Prod.mk.injEq] at h
          exact ⟨h.1.1.symm, h.1.2.symm⟩
        | some d => simp [detach, hvm, hreg, hd] at h

/-- The provider call of `Attach` happens after the locked block and touches
neither `attached_vm_id` nor `device_letter` nor the registry: the full call
agrees with the locked block on those three. -/
theorem attach_eq_attachCS (res : NI) (reg : Registry) (vm : VM) (pr : Option String) :
    (attach res reg vm pr).1.1.attached_vm_id = (attachCS res reg vm).1.1.attached_vm_id ∧
    (attach res reg vm pr).1.1.device_letter = (attachCS res reg vm).1.1.device_letter ∧
    (attach res reg vm pr).1.2 = (attachCS res reg vm).1.2 := by
  rcases hcs : attachCS res reg vm with ⟨⟨res2, reg2⟩, e⟩
  cases e with
  | none =>
    cases pr with
    | none => simp [attach, hcs]
    | some aid => simp [attach, hcs]
  | some e => simp [attach, hcs]

theorem setRes_eq (f : ℕ → NI) (i : ℕ) (r : NI) : setRes f i r i = r := by
  simp [setRes]

theorem setRes_ne (f : ℕ → NI) (i j : ℕ) (r : NI) (h : j ≠ i) : setRes f i r j = f j := by
  simp [setRes, h]

/-- The invariant holds of the initial process state. -/
theorem Inv_init (env : String → String) : Inv env sysInit := by
  constructor
  · intro m fs h
    simp [sysInit, emptyRegistry] at h
  · intro i m d h
    simp [sysInit, freshNI] at h
  · intro i j m di dj hij h
    simp [sysInit, freshNI] at h

/-- In the success case of the locked block, every index of the claimed set
is in `[1, slot_count)` for the machine's type. -/
theorem attachCS_success_bounds (reg : Registry)
    (env : String → String) (vmId : String) (s₀ : Finset ℕ) (hne : s₀.Nonempty)
    (hInv : ∀ m fs, reg m = some fs → ∀ d ∈ fs,
      ∃ c, numNetworkInterfaces (env m) = some c ∧ 1 ≤ d ∧ d < c)
    (hscen : reg vmId = some s₀ ∨
      (reg vmId = none ∧ ∃ c, numNetworkInterfaces (env vmId) = some c ∧
        s₀ = Finset.Ico 1 c)) :
    ∃ c, numNetworkInterfaces (env vmId) = some c ∧ ∀ d ∈ s₀, 1 ≤ d ∧ d < c := by
  rcases hscen with h | ⟨-, c, hc, hs⟩
  · rcases hlook : numNetworkInterfaces (env vmId) with _ | c
    · obtain ⟨d, hd⟩ := hne
      obtain ⟨c, hc, -⟩ := hInv vmId s₀ h d hd
      rw [hlook] at hc
      exact Option.noConfusion hc
    · refine ⟨c, rfl, ?_⟩
      intro d hd
      obtain ⟨c', hc', hb⟩ := hInv vmId s₀ h d hd
      rw [hlook] at hc'
      obtain rfl : c' = c := (Option.some.injEq _ _).mp hc'.symm
      exact hb
  · refine ⟨c, hc, ?_⟩
    intro d hd
    rw [hs] at hd
    simp only [Finset.mem_Ico] at hd
    omega

/-- Claim C1: at every point where the process-wide lock is free, at most one
network interface holds a given (machine, device index) pair and every
registry free set for a machine only holds indices in `[1, slot_count)` for
that machine's type — and every `Attach` and every `Detach` call preserves
this invariant (`Inv` additionally carries the inductive strengthening that
held indices are in range and never simultaneously free). -/
theorem sysStep_preserves_Inv (env : String → String) (s s₁ : Sys)
    (hInv : Inv env s) (hstep : SysStep env s s₁) : Inv env s₁ := by
  cases hstep with
  | attachStep i vmId pr hfree =>
    obtain ⟨hA1, hA2, hA3⟩ :=
      attach_eq_attachCS (s.resources i) s.registry ⟨vmId, env vmId⟩ pr
    rcases hcs : attachCS (s.resources i) s.registry ⟨vmId, env vmId⟩ with ⟨⟨res2, reg2⟩, e⟩
    rw [hcs] at hA1 hA2 hA3
    dsimp only at hA1 hA2 hA3
    cases e with
    | none =>
      obtain ⟨s₀, hne, hscen, hres2, hreg2vm, hreg2ne⟩ :=
        attachCS_success_spec _ _ _ _ _ hcs
      have hscen' : s.registry vmId = some s₀ ∨
          (s.registry vmId = none ∧ ∃ c, numNetworkInterfaces (env vmId) = some c ∧
            s₀ = Finset.Ico 1 c) := hscen
      have hreg2vm' : reg2 vmId = some (s₀.erase (s₀.min' hne)) := hreg2vm
      have hreg2ne' : ∀ k, k ≠ vmId → reg2 k = s.registry k := hreg2ne
      have hres2' : res2.attached_vm_id = some vmId ∧
          res2.device_letter = some (s₀.min' hne) := by
        rw [hres2]; exact ⟨rfl, rfl⟩
      obtain ⟨c, hc, hbound⟩ :=
        attachCS_success_bounds s.registry env vmId s₀ hne hInv.regRange hscen'
      have hd₀ : s₀.min' hne ∈ s₀ := Finset.min'_mem s₀ hne
      constructor
      · -- regRange
        intro m fs hm d hd
        dsimp only at hm
        rw [hA3] at hm
        by_cases hmv : m = vmId
        · subst hmv
          rw [hreg2vm', Option.some.injEq] at hm
          subst hm
          exact ⟨c, hc, hbound d (Finset.mem_of_mem_erase hd)⟩
        · rw [hreg2ne' m hmv] at hm
          exact hInv.regRange m fs hm d hd
      · -- heldOk
        intro j m d hjm hjd
        dsimp only at hjm hjd ⊢
        by_cases hji : j = i
        · rw [hji] at hjm hjd
          rw [setRes_eq, hA1, hres2'.1, Option.some.injEq] at hjm
          rw [setRes_eq, hA2, hres2'.2, Option.some.injEq] at hjd
          subst hjm
          subst hjd
          refine ⟨s₀.erase (s₀.min' hne), by rw [hA3]; exact hreg2vm',
            Finset.not_mem_erase _ _, c, hc, hbound _ hd₀⟩
        · rw [setRes_ne _ _ _ _ hji] at hjm hjd
          obtain ⟨fs, hfs, hnot, c', hc', hb'⟩ := hInv.heldOk j m d hjm hjd
          by_cases hmv : m = vmId
          · subst hmv
            rcases hscen' with hh | ⟨hnone, -⟩
            · rw [hh, Option.some.injEq] at hfs
              subst hfs
              refine ⟨s₀.erase (s₀.min' hne), by rw [hA3]; exact hreg2vm',
                fun hmem => hnot (Finset.mem_of_mem_erase hmem), c', hc', hb'⟩
            · rw [hnone] at hfs
              exact Option.noConfusion hfs
          · refine ⟨fs, ?_, hnot, c', hc', hb'⟩
            rw [hA3, hreg2ne' m hmv]
            exact hfs
      · -- distinctIdx
        intro j k m dj dk hjk hjm hkm hjd hkd
        dsimp only at hjm hkm hjd hkd
        by_cases hji : j = i
        · have hki : k ≠ i := fun hh => hjk (by rw [hji, hh])
          rw [hji] at hjm hjd
          rw [setRes_eq, hA1, hres2'.1, Option.some.injEq] at hjm
          rw [setRes_eq, hA2, hres2'.2, Option.some.injEq] at hjd
          subst hjm
          subst hjd
          rw [setRes_ne _ _ _ _ hki] at hkm hkd
          obtain ⟨fs, hfs, hnot, -⟩ := hInv.heldOk k vmId dk hkm hkd
          rcases hscen' with hh | ⟨hnone, -⟩
          · rw [hh, Option.some.injEq] at hfs
            subst hfs
            intro heq
            exact hnot (heq ▸ hd₀)
          · rw [hnone] at hfs
            exact absurd hfs (Option.noConfusion)
        · by_cases hki : k = i
          · rw [hki] at hkm hkd
            rw [setRes_eq, hA1, hres2'.1, Option.some.injEq] at hkm
            rw [setRes_eq, hA2, hres2'.2, Option.some.injEq] at hkd
            subst hkm
            subst hkd
            rw [setRes_ne _ _ _ _ hji] at hjm hjd
            obtain ⟨fs, hfs, hnot, -⟩ := hInv.heldOk j vmId dj hjm hjd
            rcases hscen' with hh | ⟨hnone, -⟩
            · rw [hh, Option.some.injEq] at hfs
              subst hfs
              intro heq
              exact hnot (heq ▸ hd₀)
            · rw [hnone] at hfs
              exact absurd hfs (Option.noConfusion)
          · rw [setRes_ne _ _ _ _ hji] at hjm hjd
            rw [setRes_ne _ _ _ _ hki] at hkm hkd
            exact hInv.distinctIdx j k m dj dk hjk hjm hkm hjd hkd
    | some err =>
      obtain ⟨hres2, hregcase⟩ := attachCS_error_spec _ _ _ _ _ _ hcs
      have hd2 : res2.device_letter = none := by rw [hres2]; exact hfree
      have hregs : (∀ k, k ≠ vmId → reg2 k = s.registry k) ∧
          (reg2 vmId = s.registry vmId ∨
            (s.registry vmId = none ∧ ∃ c, numNetworkInterfaces (env vmId) = some c ∧
              reg2 vmId = some (Finset.Ico 1 c))) := by
        rcases hregcase with ⟨-, -, -, hr⟩ | ⟨-, ⟨hsame, hr⟩ | ⟨hnone, c, hc, -, hr⟩⟩
        · exact ⟨fun k _ => by rw [hr], Or.inl (by rw [hr])⟩
        · exact ⟨fun k _ => by rw [hr], Or.inl hsame⟩
        · subst hr
          refine ⟨fun k hk => Registry.update_ne _ _ _ _ hk, Or.inr ⟨hnone, c, hc, ?_⟩⟩
          exact Registry.update_self _ _ _
      constructor
      · intro m fs hm d hd
        dsimp only at hm
        rw [hA3] at hm
        by_cases hmv : m = vmId
        · subst hmv
          rcases hregs.2 with hsame | ⟨-, c, hc, hico⟩
          · rw [hsame] at hm
            exact hInv.regRange m fs hm d hd
          · rw [hico, Option.some.injEq] at hm
            subst hm
            simp only [Finset.mem_Ico] at hd
            exact ⟨c, hc, hd.1, hd.2⟩
        · rw [hregs.1 m hmv] at hm
          exact hInv.regRange m fs hm d hd
      · intro j m d hjm hjd
        dsimp only at hjm hjd ⊢
        by_cases hji : j = i
        · rw [hji, setRes_eq, hA2, hd2] at hjd
          exact absurd hjd (Option.noConfusion)
        · rw [setRes_ne _ _ _ _ hji] at hjm hjd
          obtain ⟨fs, hfs, hnot, c', hc', hb'⟩ := hInv.heldOk j m d hjm hjd
          by_cases hmv : m = vmId
          · subst hmv
            rcases hregs.2 with hsame | ⟨hnone, -⟩
            · refine ⟨fs, ?_, hnot, c', hc', hb'⟩
              rw [hA3, hsame]
              exact hfs
            · rw [hnone] at hfs
              exact absurd hfs (Option.noConfusion)
          · refine ⟨fs, ?_, hnot, c', hc', hb'⟩
            rw [hA3, hregs.1 m hmv]
            exact hfs
      · intro j k m dj dk hjk hjm hkm hjd hkd
        dsimp only at hjm hkm hjd hkd
        by_cases hji : j = i
        · rw [hji, setRes_eq, hA2, hd2] at hjd
          exact absurd hjd (Option.noConfusion)
        · by_cases hki : k = i
          · rw [hki, setRes_eq, hA2, hd2] at hkd
            exact absurd hkd (Option.noConfusion)
          · rw [setRes_ne _ _ _ _ hji] at hjm hjd
            rw [setRes_ne _ _ _ _ hki] at hkm hkd
            exact hInv.distinctIdx j k m dj dk hjk hjm hkm hjd hkd
  | detachStep i ok d hd =>
    rcases hD : detach (s.resources i) s.registry ok with ⟨⟨res2, reg2⟩, e⟩
    cases e with
    | some err =>
      obtain ⟨hres2, hreg2⟩ := detach_error_spec _ _ _ _ _ _ hD
      subst hres2
      subst hreg2
      have h3 : setRes s.resources i (s.resources i) = s.resources := by
        funext j
        by_cases hj : j = i
        · rw [hj, setRes_eq]
        · rw [setRes_ne _ _ _ _ hj]
      dsimp only
      rw [h3]
      exact hInv
    | none =>
      obtain ⟨hok, m₀, d₀, fs₀, hvm₀, hd₀, hreg₀, hres2, hreg2m, hreg2ne⟩ :=
        detach_success_spec _ _ _ _ _ hD
      obtain ⟨fs', hfs', hnot', c₀, hc₀, hb₀⟩ := hInv.heldOk i m₀ d₀ hvm₀ hd₀
      have hres2' : res2.attached_vm_id = none ∧ res2.device_letter = none := by
        rw [hres2]; exact ⟨rfl, rfl⟩
      constructor
      · intro m fs hm dx hdx
        dsimp only at hm
        by_cases hmm : m = m₀
        · have hmm' : m₀ = m := hmm.symm
          subst hmm'
          rw [hreg2m, Option.some.injEq] at hm
          subst hm
          rcases Finset.mem_insert.mp hdx with heq | hmem
          · rw [heq]
            exact ⟨c₀, hc₀, hb₀⟩
          · exact hInv.regRange m₀ fs₀ hreg₀ dx hmem
        · rw [hreg2ne m hmm] at hm
          exact hInv.regRange m fs hm dx hdx
      · intro j m dx hjm hjd
        dsimp only at hjm hjd ⊢
        by_cases hji : j = i
        · rw [hji, setRes_eq, hres2'.1] at hjm
          exact absurd hjm (Option.noConfusion)
        · rw [setRes_ne _ _ _ _ hji] at hjm hjd
          obtain ⟨fs, hfs, hnot, c', hc', hb'⟩ := hInv.heldOk j m dx hjm hjd
          by_cases hmm : m = m₀
          · have hmm' : m₀ = m := hmm.symm
            subst hmm'
            have hfseq : fs₀ = fs := by
              rw [hreg₀, Option.some.injEq] at hfs
              exact hfs
            refine ⟨insert d₀ fs₀, hreg2m, ?_, c', hc', hb'⟩
            intro hmem
            rcases Finset.mem_insert.mp hmem with heq | hmem'
            · exact hInv.distinctIdx j i m₀ dx d₀ hji hjm hvm₀ hjd hd₀ heq
            · rw [hfseq] at hmem'
              exact hnot hmem'
          · refine ⟨fs, ?_, hnot, c', hc', hb'⟩
            rw [hreg2ne m hmm]
            exact hfs
      · intro j k m dj dk hjk hjm hkm hjd hkd
        dsimp only at hjm hkm hjd hkd
        by_cases hji : j = i
        · rw [hji, setRes_eq, hres2'.1] at hjm
          exact absurd hjm (Option.noConfusion)
        · by_cases hki : k = i
          · rw [hki, setRes_eq, hres2'.1] at hkm
            exact absurd hkm (Option.noConfusion)
          · rw [setRes_ne _ _ _ _ hji] at hjm hjd
            rw [setRes_ne _ _ _ _ hki] at hkm hkd
            exact hInv.distinctIdx j k m dj dk hjk hjm hkm hjd hkd

theorem attachCS_at_entry (res : NI) (reg : Registry) (vm : VM) (s : Finset ℕ)
    (hreg : reg vm.id = some s) (hne : s.Nonempty) :
    attachCS res reg vm =
      (({ res with attached_vm_id := some vm.id, device_letter := some (s.min' hne) },
        reg.update vm.id (s.erase (s.min' hne))), none) := by
  simp only [attachCS, hreg, claimMin, dif_pos hne]

theorem attach_of_attachCS_success (res res2 : NI) (reg reg2 : Registry) (vm : VM)
    (aid : String) (h : attachCS res reg vm = ((res2, reg2), none)) :
    attach res reg vm (some aid) = (({ res2 with attachment_id := some aid }, reg2), none) := by
  simp [attach, h]

theorem attach_of_attachCS_error (res res2 : NI) (reg reg2 : Registry) (vm : VM)
    (pr : Option String) (e : AttachError)
    (h : attachCS res reg vm = ((res2, reg2), some e)) :
    attach res reg vm pr = ((res2, reg2), some e) := by
  simp [attach, h]

/-- Claim C2: on an `Attach` for a machine with no registry entry, the free
set is lazily initialised to exactly `{1, ..., slot_count − 1}` (the set
`range(1, c)`), the claimed index is its minimum (namely `1`), the index is
removed from the stored set inside the locked block (the full call's
registry equals the locked block's), and an absent machine type raises a
lookup error. -/
theorem attach_fresh_machine_spec (res : NI) (reg : Registry) (vm : VM)
    (pr : Option String) (hnone : reg vm.id = none) :
    (∀ c, numNetworkInterfaces vm.machine_type = some c →
      ∃ hne : (Finset.Ico 1 c).Nonempty,
        (∀ d, d ∈ Finset.Ico 1 c ↔ 1 ≤ d ∧ d ≤ c - 1) ∧
        (Finset.Ico 1 c).min' hne = 1 ∧
        (attach res reg vm pr).1.1.device_letter = some 1 ∧
        (attach res reg vm pr).1.2 vm.id = some ((Finset.Ico 1 c).erase 1) ∧
        (attach res reg vm pr).1.2 = (attachCS res reg vm).1.2) ∧
    (numNetworkInterfaces vm.machine_type = none →
      (attach res reg vm pr).2 = some (AttachError.keyError vm.machine_type)) := by
  obtain ⟨hA1, hA2, hA3⟩ := attach_eq_attachCS res reg vm pr
  constructor
  · intro c htab
    have hc2 : 2 ≤ c := numNetworkInterfaces_two_le _ _ htab
    have hne : (Finset.Ico 1 c).Nonempty := Finset.nonempty_Ico.mpr (by omega)
    have hmin : (Finset.Ico 1 c).min' hne = 1 := Ico_min' 1 c hne
    have hcs : attachCS res reg vm =
        (({ res with attached_vm_id := some vm.id, device_letter := some ((Finset.Ico 1 c).min' hne) },
          (reg.update vm.id (Finset.Ico 1 c)).update vm.id
            ((Finset.Ico 1 c).erase ((Finset.Ico 1 c).min' hne))), none) := by
      simp only [attachCS, hnone, htab, claimMin, dif_pos hne]
    refine ⟨hne, ?_, hmin, ?_, ?_, hA3⟩
    · intro d
      simp only [Finset.mem_Ico]
      omega
    · rw [hA2, hcs, hmin]
    · rw [hA3, hcs, hmin]
      exact Registry.update_self _ _ _
  · intro htab
    have hcs : attachCS res reg vm =
        (({ res with attached_vm_id := some vm.id }, reg),
          some (AttachError.keyError vm.machine_type)) := by
      simp only [attachCS, hnone, htab]
    rw [attach_of_attachCS_error _ _ _ _ _ _ _ hcs]

/-- Witness for C2: attaching a fresh interface on machine type c1.medium
(2 slots) with an empty registry claims index 1; an unknown machine type
raises the lookup error. -/
theorem attach_fresh_machine_spec_witness :
    (attach freshNI emptyRegistry ⟨"i-1", "c1.medium"⟩ (some "att-1")).1.1.device_letter
      = some 1 ∧
    (attach freshNI emptyRegistry ⟨"i-2", "no.such.type"⟩ (some "att-1")).2
      = some (AttachError.keyError "no.such.type") := by
  constructor
  · obtain ⟨hne, -, -, h, -, -⟩ :=
      (attach_fresh_machine_spec freshNI emptyRegistry ⟨"i-1", "c1.medium"⟩
        (some "att-1") rfl).1 2 (by decide)
    exact h
  · exact (attach_fresh_machine_spec freshNI emptyRegistry ⟨"i-2", "no.such.type"⟩
      (some "att-1") rfl).2 (by decide)

/-- Claim C3 counterexample: a successful `Detach` leaves `attachment_id`
at its old value — it does not become null, contrary to the claim that all
three fields are cleared. -/
theorem detach_attachment_id_counterexample :
    (detach ⟨some "i-1", some 1, some "eni-attach-1"⟩
      (Registry.update emptyRegistry "i-1" ∅) true).2 = none ∧
    (detach ⟨some "i-1", some 1, some "eni-attach-1"⟩
      (Registry.update emptyRegistry "i-1" ∅) true).1.1.attachment_id
        = some "eni-attach-1" ∧
    ¬((detach ⟨some "i-1", some 1, some "eni-attach-1"⟩
      (Registry.update emptyRegistry "i-1" ∅) true).1.1.attachment_id = none) := by
  refine ⟨rfl, rfl, fun h => ?_⟩
  rw [show (detach ⟨some "i-1", some 1, some "eni-attach-1"⟩
      (Registry.update emptyRegistry "i-1" ∅) true).1.1.attachment_id
        = some "eni-attach-1" from rfl] at h
  exact Option.noConfusion h

/-- Claim C3 (amended): a successful `Detach` re-adds the device index to
the machine's free set and nulls the device index and the attached-machine
identifier; the attachment identifier is NOT cleared — it keeps its prior
value. -/
theorem detach_success_clears_fields (res : NI) (reg : Registry) (m : String)
    (d : ℕ) (fs : Finset ℕ)
    (hm : res.attached_vm_id = some m) (hd : res.device_letter = some d)
    (hreg : reg m = some fs) :
    (detach res reg true).2 = none ∧
    (∃ fs2, (detach res reg true).1.2 m = some fs2 ∧ d ∈ fs2) ∧
    (detach res reg true).1.1.attached_vm_id = none ∧
    (detach res reg true).1.1.device_letter = none ∧
    (detach res reg true).1.1.attachment_id = res.attachment_id := by
  have hD : detach res reg true =
      (({ res with attached_vm_id := none, device_letter := none },
        reg.update m (insert d fs)), none) := by
    simp only [detach, hm, hreg, hd, if_true]
  rw [hD]
  exact ⟨rfl, ⟨insert d fs, Registry.update_self _ _ _, Finset.mem_insert_self _ _⟩,
    rfl, rfl, rfl⟩

/-- Witness for amended C3 on a concrete attached interface. -/
theorem detach_success_clears_fields_witness :
    (detach ⟨some "i-1", some 1, some "eni-attach-1"⟩
      (Registry.update emptyRegistry "i-1" {2}) true).2 = none ∧
    (∃ fs2, (detach ⟨some "i-1", some 1, some "eni-attach-1"⟩
      (Registry.update emptyRegistry "i-1" {2}) true).1.2 "i-1" = some fs2 ∧ 1 ∈ fs2) ∧
    (detach ⟨some "i-1", some 1, some "eni-attach-1"⟩
      (Registry.update emptyRegistry "i-1" {2}) true).1.1.attached_vm_id = none ∧
    (detach ⟨some "i-1", some 1, some "eni-attach-1"⟩
      (Registry.update emptyRegistry "i-1" {2}) true).1.1.device_letter = none ∧
    (detach ⟨some "i-1", some 1, some "eni-attach-1"⟩
      (Registry.update emptyRegistry "i-1" {2}) true).1.1.attachment_id
        = some "eni-attach-1" :=
  detach_success_clears_fields ⟨some "i-1", some 1, some "eni-attach-1"⟩
    (Registry.update emptyRegistry "i-1" {2}) "i-1" 1 {2} rfl rfl (by decide)

/-- Witness for C1: a concrete `Attach` step from the initial process state
preserves the invariant. -/
theorem sysStep_preserves_Inv_witness :
    Inv (fun _ => "c1.medium")
      ⟨setRes sysInit.resources 0
        (attach (sysInit.resources 0) sysInit.registry ⟨"i-1", "c1.medium"⟩ (some "att-1")).1.1,
       (attach (sysInit.resources 0) sysInit.registry ⟨"i-1", "c1.medium"⟩ (some "att-1")).1.2⟩ :=
  sysStep_preserves_Inv (fun _ => "c1.medium") sysInit _ (Inv_init _)
    (SysStep.attachStep sysInit 0 "i-1" (some "att-1") rfl)

/-- Claim C4: `_Exists` raises when two or more interfaces match, returns
`False` when none matches, returns `True` exactly when the single returned
status is `available` or `in-use`, returns `False` for a recognized status
outside the exists set (a vacuous case: the code sets the known-status set
equal to the exists set), and raises on an unrecognized status. -/
theorem existsCheck_spec (enis : List String) :
    (2 ≤ enis.length → existsCheck enis = .error .tooManyInterfaces) ∧
    (enis = [] → existsCheck enis = .ok false) ∧
    (∀ s, enis = [s] →
      ((existsCheck enis = .ok true ↔ (s = "available" ∨ s = "in-use")) ∧
       (s ∈ NETWORK_INTERFACE_KNOWN_STATUS → s ∉ NETWORK_INTERFACE_EXISTS_STATUS →
         existsCheck enis = .ok false) ∧
       (s ∉ NETWORK_INTERFACE_KNOWN_STATUS →
         existsCheck enis = .error (.unknownStatus s)))) := by
  refine ⟨?_, ?_, ?_⟩
  · intro h
    simp only [existsCheck, if_pos h]
  · rintro rfl
    rfl
  · rintro s rfl
    have hred : existsCheck [s] =
        if NETWORK_INTERFACE_KNOWN_STATUS.contains s then
          Except.ok (NETWORK_INTERFACE_EXISTS_STATUS.contains s)
        else Except.error (.unknownStatus s) := by
      simp [existsCheck]
    have hcon : ∀ l : List String, l.contains s = true ↔ s ∈ l := by
      intro l
      simp
    have hmem_iff : s ∈ NETWORK_INTERFACE_KNOWN_STATUS ↔ (s = "available" ∨ s = "in-use") := by
      simp [NETWORK_INTERFACE_KNOWN_STATUS, NETWORK_INTERFACE_EXISTS_STATUS]
    by_cases hs : s = "available" ∨ s = "in-use"
    · have hk : NETWORK_INTERFACE_KNOWN_STATUS.contains s = true :=
        (hcon _).mpr (hmem_iff.mpr hs)
      have he : NETWORK_INTERFACE_EXISTS_STATUS.contains s = true :=
        (hcon _).mpr (hmem_iff.mpr hs)
      rw [hred, if_pos hk, he]
      refine ⟨⟨fun _ => hs, fun _ => rfl⟩, ?_, ?_⟩
      · intro hkm hnm
        exact absurd hkm hnm
      · intro hnk
        exact absurd (hmem_iff.mpr hs) hnk
    · have hk : ¬(NETWORK_INTERFACE_KNOWN_STATUS.contains s = true) :=
        fun hc => hs (hmem_iff.mp ((hcon _).mp hc))
      rw [hred, if_neg hk]
      refine ⟨⟨fun he => Except.noConfusion he, fun hh => absurd hh hs⟩, ?_, fun _ => rfl⟩
      intro hkm hnm
      exact absurd ((hcon _).mpr hkm) hk

/-- Witness for C4 on concrete describe responses. -/
theorem existsCheck_spec_witness :
    existsCheck ["available"] = .ok true ∧
    existsCheck ["deleting"] = .error (.unknownStatus "deleting") ∧
    existsCheck [] = .ok false ∧
    existsCheck ["in-use", "in-use"] = .error .tooManyInterfaces :=
  ⟨((existsCheck_spec ["available"]).2.2 "available" rfl).1.mpr (Or.inl rfl),
   ((existsCheck_spec ["deleting"]).2.2 "deleting" rfl).2.2 (by decide),
   (existsCheck_spec []).2.1 rfl,
   (existsCheck_spec ["in-use", "in-use"]).1 (by decide)⟩

/-- Successive attaches on an initially untracked machine assign the indices
`1, 2, ..., n` in order, leaving `{n+1, ..., c-1}` free. -/
theorem attachSeq_spec (reg : Registry) (vm : VM) (c : ℕ)
    (htab : numNetworkInterfaces vm.machine_type = some c)
    (hnone : reg vm.id = none) :
    ∀ n, n ≤ c - 1 →
      (attachSeq reg vm n).2 = (List.range n).map (fun j => some (j + 1)) ∧
      ((attachSeq reg vm n).1 vm.id =
        if n = 0 then none else some (Finset.Ico (n + 1) c)) := by
  have hc2 : 2 ≤ c := numNetworkInterfaces_two_le _ _ htab
  intro n
  induction n with
  | zero =>
    intro h
    refine ⟨rfl, ?_⟩
    simp only [attachSeq, if_pos rfl]
    exact hnone
  | succ n ih =>
    intro hn
    have hn' : n ≤ c - 1 := by omega
    obtain ⟨hlist, hreg⟩ := ih hn'
    by_cases h0 : n = 0
    · subst h0
      rw [if_pos rfl] at hreg
      have hne : (Finset.Ico 1 c).Nonempty := Finset.nonempty_Ico.mpr (by omega)
      have hmin : (Finset.Ico 1 c).min' hne = 1 := Ico_min' 1 c hne
      have hcs : attachCS freshNI (attachSeq reg vm 0).1 vm =
          (({ freshNI with attached_vm_id := some vm.id, device_letter := some ((Finset.Ico 1 c).min' hne) },
            ((attachSeq reg vm 0).1.update vm.id (Finset.Ico 1 c)).update vm.id
              ((Finset.Ico 1 c).erase ((Finset.Ico 1 c).min' hne))), none) := by
        simp only [attachCS, hreg, htab, claimMin, dif_pos hne]
      have hfull := attach_of_attachCS_success _ _ _ _ _ "att" hcs
      constructor
      · show (attachSeq reg vm 0).2 ++
            [(attach freshNI (attachSeq reg vm 0).1 vm (some "att")).1.1.device_letter] = _
        rw [hfull]
        simp [hlist, hmin, List.range_succ]
      · show (attach freshNI (attachSeq reg vm 0).1 vm (some "att")).1.2 vm.id = _
        rw [hfull]
        rw [if_neg (Nat.succ_ne_zero 0), hmin]
        show (((attachSeq reg vm 0).1.update vm.id (Finset.Ico 1 c)).update vm.id
            ((Finset.Ico 1 c).erase 1)) vm.id = _
        rw [Registry.update_self, Ico_erase_left]
    · rw [if_neg h0] at hreg
      have hlt : n + 1 < c := by omega
      have hne : (Finset.Ico (n + 1) c).Nonempty := Finset.nonempty_Ico.mpr hlt
      have hmin : (Finset.Ico (n + 1) c).min' hne = n + 1 := Ico_min' _ _ hne
      have hcs := attachCS_at_entry freshNI (attachSeq reg vm n).1 vm _ hreg hne
      have hfull := attach_of_attachCS_success _ _ _ _ _ "att" hcs
      constructor
      · show (attachSeq reg vm n).2 ++
            [(attach freshNI (attachSeq reg vm n).1 vm (some "att")).1.1.device_letter] = _
        rw [hfull, hlist]
        simp [hmin, List.range_succ]
      · show (attach freshNI (attachSeq reg vm n).1 vm (some "att")).1.2 vm.id = _
        rw [hfull]
        rw [if_neg (Nat.succ_ne_zero n), hmin]
        show ((attachSeq reg vm n).1.update vm.id
            ((Finset.Ico (n + 1) c).erase (n + 1))) vm.id = _
        rw [Registry.update_self, Ico_erase_left]

/-- Claim C5 counterexample: for machine type c1.medium the capacity is 2,
and N = 1 = capacity − 1 attaches assign device index 1 — but 1 does not lie
in the claimed half-open interval [1, capacity − 1) = [1, 1), which is
empty.  The assigned index can equal capacity − 1, which that interval
excludes. -/
theorem attachSeq_interval_counterexample :
    numNetworkInterfaces "c1.medium" = some 2 ∧
    (attachSeq emptyRegistry ⟨"i-1", "c1.medium"⟩ 1).2 = [some 1] ∧
    ¬((1 : ℕ) < 2 - 1) := by decide

/-- Claim C5 (amended): for a tabulated machine type with capacity `c` and
any `N ≤ c − 1`, N successive attaches of distinct fresh interfaces to the
same machine assign N pairwise-distinct device indices, each in the
interval `[1, c)` (equivalently `1 ≤ d ≤ c − 1`); the original interval
`[1, c−1)` is off by one, as the N-th index can equal `c − 1`. -/
theorem attachSeq_distinct_in_range (reg : Registry) (vm : VM) (c N : ℕ)
    (htab : numNetworkInterfaces vm.machine_type = some c)
    (hnone : reg vm.id = none) (hN : N ≤ c - 1) :
    ∃ ds : List ℕ, (attachSeq reg vm N).2 = ds.map some ∧
      ds.Nodup ∧ ∀ d ∈ ds, 1 ≤ d ∧ d < c := by
  have hc2 : 2 ≤ c := numNetworkInterfaces_two_le _ _ htab
  obtain ⟨hlist, -⟩ := attachSeq_spec reg vm c htab hnone N hN
  refine ⟨(List.range N).map (fun j => j + 1), ?_, ?_, ?_⟩
  · rw [hlist, List.map_map]
    rfl
  · exact List.Nodup.map (fun a b h => by omega) (List.nodup_range N)
  · intro d hd
    simp only [List.mem_map, List.mem_range] at hd
    obtain ⟨j, hj, rfl⟩ := hd
    omega

/-- Witness for amended C5: machine type c3.large (capacity 3), N = 2. -/
theorem attachSeq_distinct_in_range_witness :
    ∃ ds : List ℕ, (attachSeq emptyRegistry ⟨"i-1", "c3.large"⟩ 2).2 = ds.map some ∧
      ds.Nodup ∧ ∀ d ∈ ds, 1 ≤ d ∧ d < 3 :=
  attachSeq_distinct_in_range emptyRegistry ⟨"i-1", "c3.large"⟩ 3 2
    (by decide) rfl (by decide)

/-- Claim C6: once every slot of a machine's free set has been claimed (the
set is empty), a further `Attach` for that machine raises — the Python
`min` of an empty set — and assigns no index; and a successful locked block
never hands out an index already held by an interface on that machine. -/
theorem attach_exhausted_and_no_reissue (env : String → String) (s : Sys)
    (hInv : Inv env s) (i : ℕ) (vmId : String) (pr : Option String) :
    (s.registry vmId = some ∅ →
      (attach (s.resources i) s.registry ⟨vmId, env vmId⟩ pr).2
          = some AttachError.valueErrorEmpty ∧
      (attach (s.resources i) s.registry ⟨vmId, env vmId⟩ pr).1.1.device_letter
          = (s.resources i).device_letter) ∧
    (∀ res2 reg2,
      attachCS (s.resources i) s.registry ⟨vmId, env vmId⟩ = ((res2, reg2), none) →
      ∀ d, res2.device_letter = some d →
        ∀ j dj, (s.resources j).attached_vm_id = some vmId →
          (s.resources j).device_letter = some dj → d ≠ dj) := by
  constructor
  · intro hemp
    have hemp' : s.registry (VM.mk vmId (env vmId)).id = some ∅ := hemp
    have hcs : attachCS (s.resources i) s.registry ⟨vmId, env vmId⟩ =
        (({ s.resources i with attached_vm_id := some vmId }, s.registry),
          some AttachError.valueErrorEmpty) := by
      simp only [attachCS, hemp', claimMin, dif_neg Finset.not_nonempty_empty]
    rw [attach_of_attachCS_error _ _ _ _ _ _ _ hcs]
    exact ⟨rfl, rfl⟩
  · intro res2 reg2 hcs d hd j dj hjm hjd
    obtain ⟨s₀, hne, hscen, hres2, -, -⟩ := attachCS_success_spec _ _ _ _ _ hcs
    rw [hres2] at hd
    simp only [Option.some.injEq] at hd
    obtain ⟨fs, hfs, hnot, -⟩ := hInv.heldOk j vmId dj hjm hjd
    rcases hscen with hh | ⟨hnone, -⟩
    · have hh' : s.registry vmId = some s₀ := hh
      rw [hh', Option.some.injEq] at hfs
      intro heq
      apply hnot
      rw [← hfs, ← heq, ← hd]
      exact Finset.min'_mem s₀ hne
    · have hnone' : s.registry vmId = none := hnone
      rw [hnone'] at hfs
      exact absurd hfs (Option.noConfusion)

/-- A concrete state for the C6 witness: one machine tracked with an empty
free set, all interfaces fresh; the invariant holds. -/
theorem Inv_exhausted_example :
    Inv (fun _ => "c1.medium")
      ⟨fun _ => freshNI, Registry.update emptyRegistry "i-1" ∅⟩ := by
  constructor
  · intro m fs hm d hd
    dsimp only at hm
    by_cases hmm : m = "i-1"
    · subst hmm
      rw [Registry.update_self, Option.some.injEq] at hm
      subst hm
      simp at hd
    · rw [Registry.update_ne _ _ _ _ hmm] at hm
      exact absurd hm (Option.noConfusion)
  · intro j m d hm hd
    exact absurd hd (Option.noConfusion)
  · intro j k m dj dk hjk hjm hkm hjd hkd
    exact absurd hjd (Option.noConfusion)

/-- Witness for C6: with the only slot pool empty, attaching fails with the
empty-set error and assigns no device index. -/
theorem attach_exhausted_witness :
    (attach freshNI (Registry.update emptyRegistry "i-1" ∅)
        ⟨"i-1", "c1.medium"⟩ (some "att")).2 = some AttachError.valueErrorEmpty ∧
    (attach freshNI (Registry.update emptyRegistry "i-1" ∅)
        ⟨"i-1", "c1.medium"⟩ (some "att")).1.1.device_letter = freshNI.device_letter :=
  (attach_exhausted_and_no_reissue (fun _ => "c1.medium")
    ⟨fun _ => freshNI, Registry.update emptyRegistry "i-1" ∅⟩
    Inv_exhausted_example 0 "i-1" (some "att")).1 (by decide)

/-- Claim C7: detaching an interface holding index `d` on machine `m` puts
`d` back into `m`'s free set, and a later `Attach` to `m` assigns the
minimum of the free set at that time — so when `d` is that minimum, the
re-attach assigns exactly `d`. -/
theorem detach_then_attach_reuses_index (res res3 : NI) (reg : Registry)
    (m mt : String) (d : ℕ) (fs : Finset ℕ) (aid : String)
    (hm : res.attached_vm_id = some m) (hd : res.device_letter = some d)
    (hreg : reg m = some fs)
    (hmin : ∀ x ∈ insert d fs, d ≤ x) :
    (detach res reg true).2 = none ∧
    ∃ fs2, (detach res reg true).1.2 m = some fs2 ∧ d ∈ fs2 ∧
      (attach res3 (detach res reg true).1.2 ⟨m, mt⟩ (some aid)).1.1.device_letter
        = some d := by
  have hD : detach res reg true =
      (({ res with attached_vm_id := none, device_letter := none },
        reg.update m (insert d fs)), none) := by
    simp only [detach, hm, hreg, hd, if_true]
  rw [hD]
  refine ⟨rfl, insert d fs, Registry.update_self _ _ _, Finset.mem_insert_self _ _, ?_⟩
  have hne : (insert d fs).Nonempty := ⟨d, Finset.mem_insert_self _ _⟩
  have hmin' : (insert d fs).min' hne = d :=
    le_antisymm (Finset.min'_le _ _ (Finset.mem_insert_self _ _))
      (hmin _ (Finset.min'_mem _ hne))
  have hregm : (reg.update m (insert d fs)) (VM.mk m mt).id = some (insert d fs) :=
    Registry.update_self _ _ _
  have hcs := attachCS_at_entry res3 (reg.update m (insert d fs)) ⟨m, mt⟩ _ hregm hne
  rw [attach_of_attachCS_success _ _ _ _ _ aid hcs]
  show some ((insert d fs).min' hne) = some d
  rw [hmin']

/-- Witness for C7: index 1 is freed by the detach, is the minimum of the
resulting pool `{1, 2}`, and the re-attach claims exactly 1. -/
theorem detach_then_attach_reuses_index_witness :
    (detach ⟨some "i-1", some 1, some "att-0"⟩
        (Registry.update emptyRegistry "i-1" {2}) true).2 = none ∧
    ∃ fs2, (detach ⟨some "i-1", some 1, some "att-0"⟩
        (Registry.update emptyRegistry "i-1" {2}) true).1.2 "i-1" = some fs2 ∧
      1 ∈ fs2 ∧
      (attach freshNI (detach ⟨some "i-1", some 1, some "att-0"⟩
          (Registry.update emptyRegistry "i-1" {2}) true).1.2
        ⟨"i-1", "c1.medium"⟩ (some "att-1")).1.1.device_letter = some 1 :=
  detach_then_attach_reuses_index ⟨some "i-1", some 1, some "att-0"⟩ freshNI
    (Registry.update emptyRegistry "i-1" {2}) "i-1" "c1.medium" 1 {2} "att-1"
    rfl rfl (by decide) (by decide)

/-- Claim C8: when the locked claim succeeds but the provider attach call
fails, the claimed index stays removed from the machine's free set: the
registry of the failed call equals the registry of a successful call (both
are the locked block's registry), and the claimed index is absent from the
machine's free set there. -/
theorem attach_provider_failure_keeps_claim (res : NI) (reg : Registry) (vm : VM)
    (aid : String) (hsucc : (attachCS res reg vm).2 = none) :
    (attach res reg vm none).2 = some AttachError.providerError ∧
    (attach res reg vm none).1.2 = (attachCS res reg vm).1.2 ∧
    (attach res reg vm (some aid)).1.2 = (attachCS res reg vm).1.2 ∧
    (∀ d, (attachCS res reg vm).1.1.device_letter = some d →
      ∀ fs, (attachCS res reg vm).1.2 vm.id = some fs → d ∉ fs) := by
  rcases hcs : attachCS res reg vm with ⟨⟨res2, reg2⟩, e⟩
  rw [hcs] at hsucc
  dsimp only at hsucc
  subst hsucc
  obtain ⟨s₀, hne, -, hres2, hreg2vm, -⟩ := attachCS_success_spec _ _ _ _ _ hcs
  refine ⟨?_, ?_, ?_, ?_⟩
  · simp [attach, hcs]
  · simp [attach, hcs]
  · simp [attach, hcs]
  · intro d hd fs hfs
    dsimp only at hd hfs
    rw [hres2] at hd
    simp only [Option.some.injEq] at hd
    rw [hreg2vm, Option.some.injEq] at hfs
    rw [← hd, ← hfs]
    exact Finset.not_mem_erase _ _

/-- Witness for C8 on a concrete successful claim with a failing provider
call. -/
theorem attach_provider_failure_keeps_claim_witness :
    (attach freshNI emptyRegistry ⟨"i-1", "c1.medium"⟩ none).2
        = some AttachError.providerError ∧
    (attach freshNI emptyRegistry ⟨"i-1", "c1.medium"⟩ none).1.2
        = (attachCS freshNI emptyRegistry ⟨"i-1", "c1.medium"⟩).1.2 ∧
    (attach freshNI emptyRegistry ⟨"i-1", "c1.medium"⟩ (some "att")).1.2
        = (attachCS freshNI emptyRegistry ⟨"i-1", "c1.medium"⟩).1.2 ∧
    (∀ d, (attachCS freshNI emptyRegistry ⟨"i-1", "c1.medium"⟩).1.1.device_letter = some d →
      ∀ fs, (attachCS freshNI emptyRegistry ⟨"i-1", "c1.medium"⟩).1.2
          (VM.mk "i-1" "c1.medium").id = some fs → d ∉ fs) :=
  attach_provider_failure_keeps_claim freshNI emptyRegistry ⟨"i-1", "c1.medium"⟩
    "att" (by decide)

/-- Claim C10: an `Attach` that fails before the provider call — machine
type absent from the table (with no registry entry), or empty free set —
has already stored the target machine id on the resource: the failed call
leaves `attached_vm_id` mutated while `device_letter` stays null, so the
failure is not atomic. -/
theorem attach_failure_not_atomic (res : NI) (reg : Registry) (vm : VM)
    (pr : Option String) (hfree : res.device_letter = none)
    (hfail : (reg vm.id = none ∧ numNetworkInterfaces vm.machine_type = none) ∨
      reg vm.id = some ∅) :
    (∃ e, (attach res reg vm pr).2 = some e ∧
      (e = AttachError.keyError vm.machine_type ∨ e = AttachError.valueErrorEmpty)) ∧
    (attach res reg vm pr).1.1.attached_vm_id = some vm.id ∧
    (attach res reg vm pr).1.1.device_letter = none := by
  rcases hfail with ⟨hnone, htab⟩ | hemp
  · have hcs : attachCS res reg vm =
        (({ res with attached_vm_id := some vm.id }, reg),
          some (AttachError.keyError vm.machine_type)) := by
      simp only [attachCS, hnone, htab]
    rw [attach_of_attachCS_error _ _ _ _ _ _ _ hcs]
    exact ⟨⟨_, rfl, Or.inl rfl⟩, rfl, hfree⟩
  · have hcs : attachCS res reg vm =
        (({ res with attached_vm_id := some vm.id }, reg),
          some AttachError.valueErrorEmpty) := by
      simp only [attachCS, hemp, claimMin, dif_neg Finset.not_nonempty_empty]
    rw [attach_of_attachCS_error _ _ _ _ _ _ _ hcs]
    exact ⟨⟨_, rfl, Or.inr rfl⟩, rfl, hfree⟩

/-- Witness for C10: attaching with an untabulated machine type fails with
the lookup error, yet the machine id is already stored on the resource. -/
theorem attach_failure_not_atomic_witness :
    (∃ e, (attach freshNI emptyRegistry ⟨"i-1", "no.such.type"⟩ (some "att")).2 = some e ∧
      (e = AttachError.keyError "no.such.type" ∨ e = AttachError.valueErrorEmpty)) ∧
    (attach freshNI emptyRegistry ⟨"i-1", "no.such.type"⟩ (some "att")).1.1.attached_vm_id
        = some "i-1" ∧
    (attach freshNI emptyRegistry ⟨"i-1", "no.such.type"⟩ (some "att")).1.1.device_letter
        = none :=
  attach_failure_not_atomic freshNI emptyRegistry ⟨"i-1", "no.such.type"⟩
    (some "att") rfl (Or.inl ⟨rfl, by decide⟩)

theorem interleaving_nil_left (r : List Action) :
    ∀ tr, Interleaving [] r tr → tr = r := by
  induction r with
  | nil =>
    intro tr h
    cases h
    rfl
  | cons x r ih =>
    intro tr h
    cases h with
    | right _ _ _ _ h1 => rw [ih _ h1]

theorem interleaving_nil_right (l : List Action) :
    ∀ tr, Interleaving l [] tr → tr = l := by
  induction l with
  | nil =>
    intro tr h
    cases h
    rfl
  | cons x l ih =>
    intro tr h
    cases h with
    | left _ _ _ _ h1 => rw [ih _ h1]

/-- The six schedules of two two-action threads. -/
theorem interleaving_two_two (a b x y : Action) (tr : List Action)
    (h : Interleaving [a, b] [x, y] tr) :
    tr = [a, b, x, y] ∨ tr = [a, x, b, y] ∨ tr = [a, x, y, b] ∨
    tr = [x, a, b, y] ∨ tr = [x, a, y, b] ∨ tr = [x, y, a, b] := by
  cases h with
  | left _ _ _ _ h1 =>
    cases h1 with
    | left _ _ _ _ h2 =>
      rw [interleaving_nil_left _ _ h2]
      exact Or.inl rfl
    | right _ _ _ _ h2 =>
      cases h2 with
      | left _ _ _ _ h3 =>
        rw [interleaving_nil_left _ _ h3]
        exact Or.inr (Or.inl rfl)
      | right _ _ _ _ h3 =>
        rw [interleaving_nil_right _ _ h3]
        exact Or.inr (Or.inr (Or.inl rfl))
  | right _ _ _ _ h1 =>
    cases h1 with
    | left _ _ _ _ h2 =>
      cases h2 with
      | left _ _ _ _ h3 =>
        rw [interleaving_nil_left _ _ h3]
        exact Or.inr (Or.inr (Or.inr (Or.inl rfl)))
      | right _ _ _ _ h3 =>
        rw [interleaving_nil_right _ _ h3]
        exact Or.inr (Or.inr (Or.inr (Or.inr (Or.inl rfl))))
    | right _ _ _ _ h2 =>
      rw [interleaving_nil_right _ _ h2]
      exact Or.inr (Or.inr (Or.inr (Or.inr (Or.inr rfl))))

/-- Two locked blocks in sequence on the same machine never claim the same
index: the second sees the set the first already removed its index from. -/
theorem attachCS_twice_distinct (ra rb : NI) (reg : Registry) (vm : VM) (da db : ℕ)
    (hfa : ra.device_letter = none) (hfb : rb.device_letter = none)
    (ha : (attachCS ra reg vm).1.1.device_letter = some da)
    (hb : (attachCS rb (attachCS ra reg vm).1.2 vm).1.1.device_letter = some db) :
    da ≠ db := by
  rcases hcsa : attachCS ra reg vm with ⟨⟨a2, g2⟩, ea⟩
  rw [hcsa] at ha hb
  dsimp only at ha hb
  cases ea with
  | some e =>
    obtain ⟨hres, -⟩ := attachCS_error_spec _ _ _ _ _ _ hcsa
    rw [hres] at ha
    dsimp only at ha
    rw [hfa] at ha
    exact absurd ha (Option.noConfusion)
  | none =>
    obtain ⟨s₀, hne, -, hres2, hreg2vm, -⟩ := attachCS_success_spec _ _ _ _ _ hcsa
    rw [hres2] at ha
    dsimp only at ha
    rw [Option.some.injEq] at ha
    rcases hcsb : attachCS rb g2 vm with ⟨⟨b2, gb⟩, eb⟩
    rw [hcsb] at hb
    dsimp only at hb
    cases eb with
    | some e =>
      obtain ⟨hresb, -⟩ := attachCS_error_spec _ _ _ _ _ _ hcsb
      rw [hresb] at hb
      dsimp only at hb
      rw [hfb] at hb
      exact absurd hb (Option.noConfusion)
    | none =>
      obtain ⟨s₁, hne1, hscen1, hresb, -, -⟩ := attachCS_success_spec _ _ _ _ _ hcsb
      rw [hresb] at hb
      dsimp only at hb
      rw [Option.some.injEq] at hb
      rcases hscen1 with hh | ⟨hnone1, -⟩
      · rw [hreg2vm, Option.some.injEq] at hh
        intro heq
        have hmem : s₁.min' hne1 ∈ s₁ := Finset.min'_mem _ _
        rw [hb] at hmem
        rw [← hh] at hmem
        exact Finset.ne_of_mem_erase hmem (by rw [ha]; exact heq.symm)
      · rw [hreg2vm] at hnone1
        exact absurd hnone1 (Option.noConfusion)

/-- Claim C9: two `Attach` calls for two distinct interfaces targeting the
same machine, run concurrently from two threads, are never assigned the same
device index — under every interleaving of their atomic actions.  The locked
block is one atomic action because both threads acquire the single
class-level lock; the provider call outside the lock interleaves freely but
touches neither the registry nor the device index. -/
theorem concurrent_attach_distinct (vm : VM) (aid : String) (st0 : CState)
    (hf0 : st0.r0.device_letter = none) (hf1 : st0.r1.device_letter = none)
    (tr : List Action) (h : Interleaving (threadProg false) (threadProg true) tr)
    (d : ℕ) :
    ¬((execList vm aid tr st0).r0.device_letter = some d ∧
      (execList vm aid tr st0).r1.device_letter = some d) := by
  rintro ⟨hd0, hd1⟩
  simp only [threadProg] at h
  rcases interleaving_two_two _ _ _ _ _ h with h6 | h6 | h6 | h6 | h6 | h6 <;>
    subst h6 <;>
    simp only [execList, execA] at hd0 hd1 <;>
    first
      | exact (attachCS_twice_distinct st0.r0 st0.r1 st0.reg vm d d hf0 hf1 hd0 hd1) rfl
      | exact (attachCS_twice_distinct st0.r1 st0.r0 st0.reg vm d d hf1 hf0 hd1 hd0) rfl

/-- Witness for C9: a concrete schedule of the two threads from fresh state;
the two interfaces cannot both end up holding index 1. -/
theorem concurrent_attach_distinct_witness :
    ¬((execList ⟨"i-1", "c1.medium"⟩ "att"
        [Action.cs false, Action.provider false, Action.cs true, Action.provider true]
        ⟨freshNI, freshNI, emptyRegistry⟩).r0.device_letter = some 1 ∧
      (execList ⟨"i-1", "c1.medium"⟩ "att"
        [Action.cs false, Action.provider false, Action.cs true, Action.provider true]
        ⟨freshNI, freshNI, emptyRegistry⟩).r1.device_letter = some 1) :=
  concurrent_attach_distinct ⟨"i-1", "c1.medium"⟩ "att" ⟨freshNI, freshNI, emptyRegistry⟩
    rfl rfl _
    (Interleaving.left _ _ _ _ (Interleaving.left _ _ _ _
      (Interleaving.right _ _ _ _ (Interleaving.right _ _ _ _ Interleaving.nil)))) 1

end AwsNetworkInterface
